import Mathlib

/-!
Shallow embedding of the FSRS spaced-repetition scheduler found in
`src/services/BlankingService.ts` (class `FSRSService`) together with its data
model from `src/types/fsrs.ts`.

Modelling conventions:
* JavaScript numbers are modelled as exact rationals (`ℚ`).  The transcendental
  primitives `Math.exp`, `Math.log`, `Math.pow` and the random draw
  `Math.random()` are abstracted into a `JSMath` record of functions, so every
  definition stays computable; theorems either hold for all instantiations or
  assume only true facts about the real functions.
* `Math.round` is modelled as `jsRound x = ⌊x + 1/2⌋`, which agrees with the
  JavaScript semantics (round half towards +∞).
* `Array.prototype.sort` (stable since ES2019) with a consistent comparator is
  modelled by a stable insertion sort with respect to the comparator's
  induced boolean order.
* Date strings `YYYY-MM-DD` appear in the source only through
  `new Date(s).getTime()`; a `DailyStats.date` is therefore modelled directly
  by that numeric timestamp.
-/

/-- JavaScript `Math.round`: round half up, `⌊x + 1/2⌋`. -/
def jsRound (x : ℚ) : ℤ := ⌊x + 1 / 2⌋

/-- Abstraction of the JavaScript math primitives used by the scheduler:
`Math.exp`, `Math.log`, `Math.pow`, and the single `Math.random()` draw that an
`applyFuzz` call may consume. -/
structure JSMath where
  exp : ℚ → ℚ
  log : ℚ → ℚ
  pow : ℚ → ℚ → ℚ
  random : ℚ

/-- Trivial instantiation of the math primitives, used to evaluate the parts of
the scheduler whose outputs do not depend on `exp`/`log`/`pow`/`random`. -/
def dummyMath : JSMath := ⟨fun _ => 0, fun _ => 0, fun _ _ => 0, 0⟩

/-- `CardState` from `src/types/fsrs.ts`. -/
inductive CardState where
  | new
  | learning
  | review
  | relearning
deriving DecidableEq, Repr

/-- `FSRSParameters` from `src/types/fsrs.ts`. -/
structure FSRSParameters where
  requestRetention : ℚ
  maximumInterval : ℚ
  w : List ℚ
  enableFuzz : Bool
deriving DecidableEq, Repr

/-- `DEFAULT_FSRS_PARAMETERS` from `src/types/fsrs.ts`. -/
def DEFAULT_FSRS_PARAMETERS : FSRSParameters :=
  ⟨0.9, 36500,
   [0.4072, 1.1829, 3.1262, 15.4722, 7.2102, 0.5316, 1.0651, 0.0234, 1.616,
    0.1544, 1.0824, 1.9813, 0.0953, 0.2975, 2.2042, 0.2407, 2.9466, 0.5034,
    0.6567],
   true⟩

/-- `FSRSCardState` from `src/types/fsrs.ts`.  Timestamps are epoch
milliseconds as rationals; `reps` and `lapses` are the naturals the code keeps
them in. -/
structure FSRSCardState where
  state : CardState
  difficulty : ℚ
  stability : ℚ
  retrievability : ℚ
  reps : ℕ
  lapses : ℕ
  lastReview : Option ℚ
  nextReview : ℚ
  scheduledDays : ℚ
  elapsedDays : ℚ
deriving DecidableEq, Repr

/-- `StudySessionConfig` from `src/types/fsrs.ts`.  Step lists are in
minutes. -/
structure StudySessionConfig where
  newCardsPerDay : ℕ
  maxReviewsPerDay : ℕ
  learningSteps : List ℚ
  relearningSteps : List ℚ
  graduatingInterval : ℚ
  easyInterval : ℚ
  adaptiveLearning : Bool
deriving DecidableEq, Repr

/-- `DEFAULT_STUDY_CONFIG` from `src/types/fsrs.ts`. -/
def DEFAULT_STUDY_CONFIG : StudySessionConfig :=
  ⟨20, 200, [1, 10], [10], 1, 4, true⟩

/-- `FSRSService.initDifficulty`: `D0(G) = w[4] - exp(w[5] * (G - 1)) + 1`. -/
def initDifficulty (m : JSMath) (P : FSRSParameters) (rating : ℕ) : ℚ :=
  P.w.getD 4 0 - m.exp (P.w.getD 5 0 * ((rating : ℚ) - 1)) + 1

/-- `FSRSService.initStability`: `S0(G) = w[G-1]`. -/
def initStability (P : FSRSParameters) (rating : ℕ) : ℚ :=
  P.w.getD (rating - 1) 0

/-- `FSRSService.nextDifficulty`: mean reversion towards `D0(Good)` followed by
the clamp to `[1, 10]`. -/
def nextDifficulty (m : JSMath) (P : FSRSParameters) (difficulty : ℚ)
    (rating : ℕ) : ℚ :=
  let d0 := initDifficulty m P 3
  let newD := P.w.getD 6 0 * d0 +
    (1 - P.w.getD 6 0) * (difficulty - P.w.getD 7 0 * ((rating : ℚ) - 3))
  max 1 (min 10 newD)

/-- `FSRSService.calculateRetrievability`: `R = exp(ln(0.9) * t / S)`, with the
guard returning `0` for non-positive stability. -/
def calculateRetrievability (m : JSMath) (elapsedDays stability : ℚ) : ℚ :=
  if stability ≤ 0 then 0
  else m.exp (m.log 0.9 * elapsedDays / stability)

/-- `FSRSService.nextStabilityAfterSuccess`. -/
def nextStabilityAfterSuccess (m : JSMath) (P : FSRSParameters)
    (difficulty stability retrievability : ℚ) (rating : ℕ) : ℚ :=
  let hardPenalty := if rating = 2 then P.w.getD 15 0 else 1
  let easyBonus := if rating = 4 then P.w.getD 16 0 else 1
  stability * (
    m.exp (P.w.getD 8 0) *
    (11 - difficulty) *
    m.pow stability (-(P.w.getD 9 0)) *
    (m.exp (P.w.getD 10 0 * (1 - retrievability)) - 1) *
    hardPenalty *
    easyBonus +
    1)

/-- `FSRSService.nextStabilityAfterFailure`, with its floor at `0.1` days. -/
def nextStabilityAfterFailure (m : JSMath) (P : FSRSParameters)
    (difficulty stability retrievability : ℚ) : ℚ :=
  max 0.1 (P.w.getD 11 0 *
    m.pow difficulty (-(P.w.getD 12 0)) *
    (m.pow (stability + 1) (P.w.getD 13 0) - 1) *
    m.exp (P.w.getD 14 0 * (1 - retrievability)))

/-- `FSRSService.calculateInterval` for the internal call sites, which always
use `parameters.requestRetention`. -/
def calculateInterval (m : JSMath) (P : FSRSParameters) (stability : ℚ) : ℚ :=
  let retention := P.requestRetention
  let factor := m.log 0.9
  let interval := stability * m.log retention / factor
  min (max 1 ((jsRound interval : ℤ) : ℚ)) P.maximumInterval

/-- `FSRSService.applyFuzz`.  When fuzz is disabled or the interval is below
2.5 days the interval is rounded and returned; otherwise the single random draw
perturbs it by up to ±5 %, scaled down for short intervals. -/
def applyFuzz (m : JSMath) (P : FSRSParameters) (interval : ℚ) : ℚ :=
  if !P.enableFuzz || interval < 2.5 then
    ((jsRound interval : ℤ) : ℚ)
  else
    let fuzzFactor := min 1 (interval / 100)
    let fuzzRange := interval * 0.05 * fuzzFactor
    let fuzz := (m.random - 0.5) * 2 * fuzzRange
    max 1 ((jsRound (interval + fuzz) : ℤ) : ℚ)

/-- JavaScript `(x).toFixed(1)` on the non-negative values `formatInterval`
feeds it: one decimal digit, rounding half up. -/
def jsToFixed1 (x : ℚ) : String :=
  let n := jsRound (x * 10)
  toString (n / 10) ++ "." ++ toString (n % 10)

/-- `FSRSService.formatInterval`. -/
def formatInterval (days : ℚ) : String :=
  if days < 1 then
    let minutes := jsRound (days * 24 * 60)
    if minutes < 60 then
      toString minutes ++ "m"
    else
      toString (jsRound ((minutes : ℚ) / 60)) ++ "h"
  else if days < 30 then
    toString (jsRound days) ++ "d"
  else if days < 365 then
    toString (jsRound (days / 30)) ++ "mo"
  else
    jsToFixed1 (days / 365) ++ "y"

/-- `FSRSService.processNewCard`.  The input `state` is the copy already
carrying the updated `elapsedDays` and `lastReview` made by `processReview`. -/
def processNewCard (m : JSMath) (P : FSRSParameters) (C : StudySessionConfig)
    (state : FSRSCardState) (rating : ℕ) (now : ℚ) : FSRSCardState :=
  let s0 := { state with
    difficulty := initDifficulty m P rating,
    stability := initStability P rating,
    reps := 1 }
  let s1 :=
    if rating = 1 then
      { s0 with state := CardState.learning,
                scheduledDays := C.learningSteps.getD 0 0 / (24 * 60) }
    else if rating = 2 then
      let stepIndex := min 1 (C.learningSteps.length - 1)
      { s0 with state := CardState.learning,
                scheduledDays := C.learningSteps.getD stepIndex 0 / (24 * 60) }
    else if rating = 3 then
      { s0 with state := CardState.review,
                scheduledDays := C.graduatingInterval }
    else
      { s0 with state := CardState.review,
                scheduledDays := C.easyInterval }
  let s2 := { s1 with scheduledDays := applyFuzz m P s1.scheduledDays }
  { s2 with nextReview := now + s2.scheduledDays * 24 * 60 * 60 * 1000,
            retrievability := calculateRetrievability m 0 s2.stability }

/-- `FSRSService.processLearningCard` for cards in `learning`/`relearning`. -/
def processLearningCard (m : JSMath) (P : FSRSParameters)
    (C : StudySessionConfig) (state : FSRSCardState) (rating : ℕ) (now : ℚ) :
    FSRSCardState :=
  let steps := if state.state = CardState.learning then C.learningSteps
    else C.relearningSteps
  let s1 :=
    if rating = 1 then
      { state with scheduledDays := steps.getD 0 0 / (24 * 60) }
    else if rating = 2 then
      let currentStep := steps.getD 0 0
      { state with scheduledDays := currentStep * 1.2 / (24 * 60) }
    else if rating = 3 then
      { state with state := CardState.review,
                   reps := state.reps + 1,
                   difficulty := nextDifficulty m P state.difficulty rating,
                   scheduledDays := C.graduatingInterval }
    else
      { state with state := CardState.review,
                   reps := state.reps + 1,
                   difficulty := nextDifficulty m P state.difficulty rating,
                   scheduledDays := C.easyInterval }
  let s2 := { s1 with scheduledDays := applyFuzz m P s1.scheduledDays }
  { s2 with nextReview := now + s2.scheduledDays * 24 * 60 * 60 * 1000,
            retrievability := calculateRetrievability m 0 s2.stability }

/-- `FSRSService.processReviewCard` for cards in the `review` state. -/
def processReviewCard (m : JSMath) (P : FSRSParameters)
    (C : StudySessionConfig) (state : FSRSCardState) (rating : ℕ)
    (now elapsedDays : ℚ) : FSRSCardState :=
  let retrievability := calculateRetrievability m elapsedDays state.stability
  let s0 := { state with retrievability := retrievability }
  let s1 :=
    if rating = 1 then
      { s0 with lapses := s0.lapses + 1,
                state := CardState.relearning,
                stability := nextStabilityAfterFailure m P s0.difficulty
                  s0.stability retrievability,
                difficulty := nextDifficulty m P s0.difficulty rating,
                scheduledDays := C.relearningSteps.getD 0 0 / (24 * 60) }
    else
      let newStability := nextStabilityAfterSuccess m P s0.difficulty
        s0.stability retrievability rating
      { s0 with reps := s0.reps + 1,
                stability := newStability,
                difficulty := nextDifficulty m P s0.difficulty rating,
                scheduledDays := calculateInterval m P newStability }
  let s2 := { s1 with scheduledDays := applyFuzz m P s1.scheduledDays }
  { s2 with nextReview := now + s2.scheduledDays * 24 * 60 * 60 * 1000 }

/-- `FSRSService.processReview`: computes the elapsed days, copies the state,
stamps `elapsedDays`/`lastReview`, and dispatches on the card lifecycle.  The
source guard `cardState.lastReview ? … : 0` is a JavaScript truthiness test,
so a stored timestamp of `0` is treated like `null` and yields elapsed `0`. -/
def processReview (m : JSMath) (P : FSRSParameters) (C : StudySessionConfig)
    (cardState : FSRSCardState) (rating : ℕ) (now : ℚ) : FSRSCardState :=
  let elapsedDays := match cardState.lastReview with
    | some lr => if lr = 0 then 0 else (now - lr) / (1000 * 60 * 60 * 24)
    | none => 0
  let newState := { cardState with elapsedDays := elapsedDays,
                                   lastReview := some now }
  match cardState.state with
  | CardState.new => processNewCard m P C newState rating now
  | CardState.learning => processLearningCard m P C newState rating now
  | CardState.relearning => processLearningCard m P C newState rating now
  | CardState.review => processReviewCard m P C newState rating now elapsedDays

/-- `SchedulingInfo` from `src/types/fsrs.ts`. -/
structure SchedulingInfo where
  rating : ℕ
  newState : FSRSCardState
  interval : ℚ
  intervalText : String
deriving DecidableEq, Repr

/-- `SchedulingCards` from `src/types/fsrs.ts`. -/
structure SchedulingCards where
  again : SchedulingInfo
  hard : SchedulingInfo
  good : SchedulingInfo
  easy : SchedulingInfo
deriving DecidableEq, Repr

/-- Body of `createSchedulingInfo` inside `FSRSService.getSchedulingCards`. -/
def createSchedulingInfo (m : JSMath) (P : FSRSParameters)
    (C : StudySessionConfig) (cardState : FSRSCardState) (currentTime : ℚ)
    (rating : ℕ) : SchedulingInfo :=
  let newState := processReview m P C cardState rating currentTime
  ⟨rating, newState, newState.scheduledDays,
   formatInterval newState.scheduledDays⟩

/-- `FSRSService.getSchedulingCards`: the four hypothetical outcomes. -/
def getSchedulingCards (m : JSMath) (P : FSRSParameters)
    (C : StudySessionConfig) (cardState : FSRSCardState) (currentTime : ℚ) :
    SchedulingCards :=
  ⟨createSchedulingInfo m P C cardState currentTime 1,
   createSchedulingInfo m P C cardState currentTime 2,
   createSchedulingInfo m P C cardState currentTime 3,
   createSchedulingInfo m P C cardState currentTime 4⟩

/-- The fields of `LearningCard` (from `src/types/learning.ts`) that the
scheduler reads: the id, the creation time, and the FSRS state. -/
structure LearningCard where
  id : String
  createdAt : ℚ
  fsrsState : FSRSCardState
deriving DecidableEq, Repr

/-- `ReviewQueueItem` from `src/types/fsrs.ts`. -/
structure ReviewQueueItem where
  cardId : String
  dueDate : ℚ
  state : CardState
  priority : ℕ
deriving DecidableEq, Repr

/-- Stable insertion of `a` into `l`, keeping earlier equivalent elements
before `a`. -/
def orderedInsert (le : α → α → Bool) (a : α) : List α → List α
  | [] => [a]
  | b :: bs => if le a b then a :: b :: bs else b :: orderedInsert le a bs

/-- Stable insertion sort: the model of JavaScript `Array.prototype.sort`
(stable since ES2019) for a consistent comparator `c`, with
`le a b ↔ c(a, b) ≤ 0`. -/
def isort (le : α → α → Bool) : List α → List α
  | [] => []
  | a :: as => orderedInsert le a (isort le as)

/-- Sort priority used by the comparator in `FSRSService.getDueCards`:
learning/relearning → 0, review → 1, new → 2. -/
def duePriority (c : LearningCard) : ℕ :=
  if c.fsrsState.state = CardState.new then 2
  else if c.fsrsState.state = CardState.learning ∨
      c.fsrsState.state = CardState.relearning then 0
  else 1

/-- Boolean order induced by the comparator in `FSRSService.getDueCards`:
first by `duePriority`, ties by `nextReview` ascending. -/
def dueLe (a b : LearningCard) : Bool :=
  duePriority a < duePriority b ∨
    (duePriority a = duePriority b ∧
      a.fsrsState.nextReview ≤ b.fsrsState.nextReview)

/-- `FSRSService.getDueCards`. -/
def getDueCards (cards : List LearningCard) (now : ℚ) : List LearningCard :=
  isort dueLe (cards.filter (fun c => c.fsrsState.nextReview ≤ now))

/-- `FSRSService.getNewCards`. -/
def getNewCards (cards : List LearningCard) : List LearningCard :=
  isort (fun a b => a.createdAt ≤ b.createdAt)
    (cards.filter (fun c => c.fsrsState.state = CardState.new))

/-- The interleaving `while` loop of `FSRSService.buildStudyQueue`: each
iteration splices up to 10 review cards and then shifts one new card.  Once
`news` is exhausted the remaining iterations emit the rest of `reviews`
unchanged, which is what the collapsed first equation returns. -/
def interleaveQueue : List α → List α → List α
  | revs, [] => revs
  | revs, n :: ns => revs.take 10 ++ n :: interleaveQueue (revs.drop 10) ns

/-- Emission of queue items with the running `priority++` counter of
`FSRSService.buildStudyQueue`, starting at `startPrio`. -/
def mkItems (startPrio : ℕ) : List LearningCard → List ReviewQueueItem
  | [] => []
  | c :: cs =>
    ⟨c.id, c.fsrsState.nextReview, c.fsrsState.state, startPrio⟩ ::
      mkItems (startPrio + 1) cs

/-- The `reviewCards` list of `FSRSService.buildStudyQueue`: due cards in the
`review` state, capped by `slice(0, maxReviewsPerDay || undefined)` — which
leaves the list uncapped when the cap is `0`. -/
def reviewCardsOf (C : StudySessionConfig) (cards : List LearningCard)
    (now : ℚ) : List LearningCard :=
  let dueReviews := (getDueCards cards now).filter
    (fun c => c.fsrsState.state = CardState.review)
  if C.maxReviewsPerDay = 0 then dueReviews
  else dueReviews.take C.maxReviewsPerDay

/-- The `learningCards` list of `FSRSService.buildStudyQueue`: due cards in
the `learning`/`relearning` states, never capped. -/
def learningCardsOf (cards : List LearningCard) (now : ℚ) :
    List LearningCard :=
  (getDueCards cards now).filter
    (fun c => c.fsrsState.state = CardState.learning ∨
      c.fsrsState.state = CardState.relearning)

/-- The `newCards` list of `FSRSService.buildStudyQueue`: new cards by
creation time, capped at `newCardsPerDay`. -/
def newCardsOf (C : StudySessionConfig) (cards : List LearningCard) :
    List LearningCard :=
  (getNewCards cards).take C.newCardsPerDay

/-- `FSRSService.buildStudyQueue`: learning/relearning items first, then the
interleaved review/new items, with the running priority counter. -/
def buildStudyQueue (C : StudySessionConfig) (cards : List LearningCard)
    (now : ℚ) : List ReviewQueueItem :=
  mkItems 0 (learningCardsOf cards now ++
    interleaveQueue (reviewCardsOf C cards now) (newCardsOf C cards))

/-- `ReviewLog` from `src/types/fsrs.ts`. -/
structure ReviewLog where
  cardId : String
  timestamp : ℚ
  rating : ℕ
  stateBefore : CardState
  stateAfter : CardState
  scheduledDays : ℚ
  elapsedDays : ℚ
  reviewDuration : ℚ
deriving DecidableEq, Repr

/-- `DailyStats` from `src/types/fsrs.ts`; `date` is the value of
`new Date(dateString).getTime()`. -/
structure DailyStats where
  date : ℚ
  reviewed : ℕ
  newLearned : ℕ
  failed : ℕ
  totalTime : ℚ
  averageAccuracy : ℚ
  cardsSkipped : ℕ
deriving DecidableEq, Repr

/-- The `byState` record built by `FSRSService.calculateLearningStats`. -/
structure StateCount where
  new : ℕ
  learning : ℕ
  review : ℕ
  relearning : ℕ
deriving DecidableEq, Repr

/-- One `byState[card.fsrsState.state]++` step. -/
def incState (bs : StateCount) : CardState → StateCount
  | CardState.new => ⟨bs.new + 1, bs.learning, bs.review, bs.relearning⟩
  | CardState.learning => ⟨bs.new, bs.learning + 1, bs.review, bs.relearning⟩
  | CardState.review => ⟨bs.new, bs.learning, bs.review + 1, bs.relearning⟩
  | CardState.relearning => ⟨bs.new, bs.learning, bs.review, bs.relearning + 1⟩

/-- `LearningStats` from `src/types/fsrs.ts`. -/
structure LearningStats where
  totalCards : ℕ
  byState : StateCount
  dueCards : ℕ
  overdueCards : ℕ
  retentionRate : ℚ
  totalReviews : ℕ
  streak : ℕ
  bestStreak : ℕ
  averageDailyReviews : ℚ
  predictedRetention : ℚ
deriving DecidableEq, Repr

/-- The streak `for` loop of `FSRSService.calculateLearningStats`, threading
`(currentStreak, bestStreak)` over the date-descending daily stats. -/
def streakLoop : List DailyStats → ℕ × ℕ → ℕ × ℕ
  | [], acc => acc
  | stat :: rest, (cur, best) =>
    if stat.reviewed > 0 then
      let cur1 := cur + 1
      streakLoop rest (cur1, if cur1 > best then cur1 else best)
    else
      streakLoop rest (0, best)

/-- `FSRSService.calculateLearningStats`.  The `for` loop over cards is the
fold computing `byState`, `dueCards` and `overdueCards`; `card.fsrsState
.lastReview || now` follows the JavaScript falsiness of both `null` and `0`. -/
def calculateLearningStats (m : JSMath) (cards : List LearningCard)
    (reviewLogs : List ReviewLog) (dailyStats : List DailyStats) (now : ℚ) :
    LearningStats :=
  let counts := cards.foldl
    (fun (acc : StateCount × ℕ × ℕ) card =>
      let bs := incState acc.1 card.fsrsState.state
      if card.fsrsState.nextReview ≤ now then
        if now - card.fsrsState.nextReview > 24 * 60 * 60 * 1000 then
          (bs, acc.2.1 + 1, acc.2.2 + 1)
        else
          (bs, acc.2.1 + 1, acc.2.2)
      else
        (bs, acc.2.1, acc.2.2))
    (⟨0, 0, 0, 0⟩, 0, 0)
  let recentLogs := reviewLogs.filter
    (fun log => now - log.timestamp < 30 * 24 * 60 * 60 * 1000)
  let retentionRate : ℚ :=
    if recentLogs.length > 0 then
      ((recentLogs.filter (fun log => 2 ≤ log.rating)).length : ℚ) /
        (recentLogs.length : ℚ)
    else 0
  let sortedStats := isort (fun a b => b.date ≤ a.date) dailyStats
  let streaks := streakLoop sortedStats (0, 0)
  let last30Days := dailyStats.filter
    (fun s => now - s.date < 30 * 24 * 60 * 60 * 1000)
  let averageDailyReviews : ℚ :=
    if last30Days.length > 0 then
      ((last30Days.foldl (fun sum s => sum + s.reviewed) 0 : ℕ) : ℚ) /
        (last30Days.length : ℚ)
    else 0
  let reviewCards := cards.filter
    (fun c => c.fsrsState.state = CardState.review)
  let predictedRetention : ℚ :=
    if reviewCards.length > 0 then
      (reviewCards.foldl
        (fun sum c =>
          let lr := match c.fsrsState.lastReview with
            | some v => if v = 0 then now else v
            | none => now
          let elapsed := (now - lr) / (1000 * 60 * 60 * 24)
          sum + calculateRetrievability m elapsed c.fsrsState.stability)
        0) / (reviewCards.length : ℚ)
    else 0
  ⟨cards.length, counts.1, counts.2.1, counts.2.2, retentionRate,
   reviewLogs.length, streaks.1, streaks.2, averageDailyReviews,
   predictedRetention⟩

/-- Daily-stats history for the statistics scenario: five consecutive studied
days (dates 0–4, `reviewed = 1`) followed by the most recent day (date 5) with
`reviewed = 0`. -/
def statsHistory : List DailyStats :=
  [⟨0, 1, 0, 0, 0, 0, 0⟩, ⟨1, 1, 0, 0, 0, 0, 0⟩, ⟨2, 1, 0, 0, 0, 0, 0⟩,
   ⟨3, 1, 0, 0, 0, 0, 0⟩, ⟨4, 1, 0, 0, 0, 0, 0⟩, ⟨5, 0, 0, 0, 0, 0, 0⟩]

/-- A graduated review-state card: difficulty 5, stability 3.1262 days, last
reviewed at time 0, no lapses yet. -/
def reviewCard : FSRSCardState :=
  ⟨CardState.review, 5, 3.1262, 1, 1, 0, some 0, 0, 1, 0⟩

/-- A graduated review-state card with a nonzero (truthy) last-review
timestamp 86400000: difficulty 5, stability 3.1262 days, no lapses yet. -/
def lapsingCard : FSRSCardState :=
  ⟨CardState.review, 5, 3.1262, 1, 1, 0, some 86400000, 0, 1, 0⟩

/-- A brand-new card, never reviewed. -/
def newCard : FSRSCardState :=
  ⟨CardState.new, 0, 0, 0, 0, 0, none, 0, 0, 0⟩

/-- A review-state card last reviewed at epoch time 86400000 (one day), used
to feed `processReview` a timestamp earlier than the last review. -/
def lateCard : FSRSCardState :=
  ⟨CardState.review, 5, 2, 1, 1, 0, some 86400000, 0, 1, 0⟩

/-- Parameters with fuzz disabled, otherwise the defaults. -/
def FUZZLESS_PARAMETERS : FSRSParameters :=
  ⟨0.9, 36500,
   [0.4072, 1.1829, 3.1262, 15.4722, 7.2102, 0.5316, 1.0651, 0.0234, 1.616,
    0.1544, 1.0824, 1.9813, 0.0953, 0.2975, 2.2042, 0.2407, 2.9466, 0.5034,
    0.6567],
   false⟩

/-- C1.  The claim says `calculateLearningStats` on a history of 5 studied
days followed by a zero-review most-recent day yields `streak = 0` and
`bestStreak = 5`.  The code sorts most-recent-first but never stops at the
first zero-review day: the running counter is reset and keeps counting the
older days, so the returned `streak` is the run ending at the *oldest* entry —
here `5`, not `0`.  `bestStreak = 5` does hold. -/
theorem c1_streak_eval :
    (calculateLearningStats dummyMath [] [] statsHistory 0).streak = 5 ∧
    (calculateLearningStats dummyMath [] [] statsHistory 0).bestStreak = 5 := by
  with_unfolding_all decide

/-- C2.  The claim says a Review card rated Again stores a scheduled interval
equal to the first relearning step in days (10 min ≈ 0.00694 days).  Reviewing
`lapsingCard` (last reviewed at the nonzero timestamp 86400000) one day later,
the code does increment `lapses` to 1 and move to `relearning` with
`elapsedDays = 1`, but `applyFuzz` rounds every interval below 2.5 days with
`Math.round`, so the stored `scheduledDays` is `round(10/1440) = 0`, not
≈ 0.00694. -/
theorem c2_again_eval :
    (processReview dummyMath DEFAULT_FSRS_PARAMETERS DEFAULT_STUDY_CONFIG
      lapsingCard 1 172800000).lapses = 1 ∧
    (processReview dummyMath DEFAULT_FSRS_PARAMETERS DEFAULT_STUDY_CONFIG
      lapsingCard 1 172800000).state = CardState.relearning ∧
    (processReview dummyMath DEFAULT_FSRS_PARAMETERS DEFAULT_STUDY_CONFIG
      lapsingCard 1 172800000).elapsedDays = 1 ∧
    (processReview dummyMath DEFAULT_FSRS_PARAMETERS DEFAULT_STUDY_CONFIG
      lapsingCard 1 172800000).scheduledDays = 0 := by
  with_unfolding_all decide

/-- C3.  The claim's invariant `0 < scheduledIntervalDays` fails on a
reachable state: a new card rated Again under the default parameters and
config gets `scheduledDays = round(1/1440) = 0` because `applyFuzz` rounds
sub-day learning steps to the nearest whole day. -/
theorem c3_invariant_eval :
    (processReview dummyMath DEFAULT_FSRS_PARAMETERS DEFAULT_STUDY_CONFIG
      newCard 1 0).scheduledDays = 0 ∧
    (processReview dummyMath DEFAULT_FSRS_PARAMETERS DEFAULT_STUDY_CONFIG
      newCard 1 0).state = CardState.learning ∧
    (processReview dummyMath DEFAULT_FSRS_PARAMETERS DEFAULT_STUDY_CONFIG
      newCard 1 0).reps = 1 := by
  with_unfolding_all decide

/-- C4, counterexample to the claimed validation: an out-of-range rating `5`
and a timestamp one day *before* the card's last review are both processed to
completion by `processReview` — the card is updated like a successful review
(`reps` 1 → 2, still `review`) and the negative elapsed time `-1` is stored
as-is.  No validation failure of any kind exists in the code. -/
theorem c4_counterexample :
    (processReview dummyMath DEFAULT_FSRS_PARAMETERS DEFAULT_STUDY_CONFIG
      lateCard 5 0).reps = 2 ∧
    (processReview dummyMath DEFAULT_FSRS_PARAMETERS DEFAULT_STUDY_CONFIG
      lateCard 5 0).state = CardState.review ∧
    (processReview dummyMath DEFAULT_FSRS_PARAMETERS DEFAULT_STUDY_CONFIG
      lateCard 5 0).elapsedDays = -1 := by
  with_unfolding_all decide

/-- C4, amended.  `processReview` performs no input validation: it is a total
transformation.  On a Review card, any rating other than 1 — including ratings
outside `{1,2,3,4}` — is processed through the success branch (`reps`
incremented, lifecycle kept at `review`), and a timestamp earlier than a
nonzero (truthy) last-review timestamp produces a state silently carrying a
negative `elapsedDays`.  (At a last-review timestamp of exactly 0 the falsy
guard stores elapsed 0 instead.) -/
theorem c4_no_validation (m : JSMath) (P : FSRSParameters)
    (Cfg : StudySessionConfig) (s : FSRSCardState) (lr now : ℚ) (r : ℕ)
    (hstate : s.state = CardState.review) (hlr : s.lastReview = some lr) :
    (r ≠ 1 →
      (processReview m P Cfg s r now).reps = s.reps + 1 ∧
      (processReview m P Cfg s r now).state = CardState.review) ∧
    (lr ≠ 0 → now < lr →
      (processReview m P Cfg s r now).elapsedDays < 0) := by
  obtain ⟨st, d, stab, retr, reps, lapses, lastR, nextR, sched, eld⟩ := s
  simp only at hstate hlr
  subst hstate
  subst hlr
  refine ⟨fun hr => ?_, fun hlr0 hnow => ?_⟩
  · simp [processReview, processReviewCard, if_neg hr]
  · have hneg : (now - lr) / (1000 * 60 * 60 * 24) < 0 := by
      apply div_neg_of_neg_of_pos
      · linarith
      · norm_num
    simp only [processReview, processReviewCard, if_neg hlr0]
    split
    · simpa using hneg
    · simpa using hneg

/-- Witness for `c4_no_validation` at the concrete card `lateCard`, the
invalid rating `5` and the timestamp `0` earlier than the nonzero last review
`86400000`. -/
theorem c4_no_validation_witness :
    ((5 ≠ 1 →
      (processReview dummyMath DEFAULT_FSRS_PARAMETERS DEFAULT_STUDY_CONFIG
        lateCard 5 0).reps = lateCard.reps + 1 ∧
      (processReview dummyMath DEFAULT_FSRS_PARAMETERS DEFAULT_STUDY_CONFIG
        lateCard 5 0).state = CardState.review) ∧
    ((86400000 : ℚ) ≠ 0 → (0 : ℚ) < 86400000 →
      (processReview dummyMath DEFAULT_FSRS_PARAMETERS DEFAULT_STUDY_CONFIG
        lateCard 5 0).elapsedDays < 0)) :=
  c4_no_validation dummyMath DEFAULT_FSRS_PARAMETERS DEFAULT_STUDY_CONFIG
    lateCard 86400000 0 5 rfl rfl

/-- C7.  From lifecycle `review`, rating Again increments `lapses` by exactly
one and moves the card to `relearning`; ratings Hard/Good/Easy leave `lapses`
unchanged. -/
theorem c7_lapse_accounting (m : JSMath) (P : FSRSParameters)
    (Cfg : StudySessionConfig) (s : FSRSCardState) (now : ℚ) (r : ℕ)
    (hstate : s.state = CardState.review) :
    (r = 1 →
      (processReview m P Cfg s r now).lapses = s.lapses + 1 ∧
      (processReview m P Cfg s r now).state = CardState.relearning) ∧
    (r = 2 ∨ r = 3 ∨ r = 4 →
      (processReview m P Cfg s r now).lapses = s.lapses) := by
  obtain ⟨st, d, stab, retr, reps, lapses, lastR, nextR, sched, eld⟩ := s
  simp only at hstate
  subst hstate
  constructor
  · rintro rfl
    simp [processReview, processReviewCard]
  · rintro (rfl | rfl | rfl) <;>
      simp [processReview, processReviewCard]

/-- Witness for `c7_lapse_accounting` at the concrete card `reviewCard`. -/
theorem c7_lapse_accounting_witness :
    ((1 = 1 →
      (processReview dummyMath DEFAULT_FSRS_PARAMETERS DEFAULT_STUDY_CONFIG
        reviewCard 1 86400000).lapses = reviewCard.lapses + 1 ∧
      (processReview dummyMath DEFAULT_FSRS_PARAMETERS DEFAULT_STUDY_CONFIG
        reviewCard 1 86400000).state = CardState.relearning) ∧
    (1 = 2 ∨ 1 = 3 ∨ 1 = 4 →
      (processReview dummyMath DEFAULT_FSRS_PARAMETERS DEFAULT_STUDY_CONFIG
        reviewCard 1 86400000).lapses = reviewCard.lapses)) :=
  c7_lapse_accounting dummyMath DEFAULT_FSRS_PARAMETERS DEFAULT_STUDY_CONFIG
    reviewCard 86400000 1 rfl

/-- C10.  For a card in `learning` or `relearning`, ratings Again and Hard
leave `difficulty`, `stability`, `reps`, `lapses` and the lifecycle untouched
(only scheduling fields change), and the Hard interval is always the *first*
step of the relevant step list scaled by 1.2 and converted to days (then
passed through `applyFuzz`), regardless of any step the card had reached. -/
theorem c10_learning_frame (m : JSMath) (P : FSRSParameters)
    (Cfg : StudySessionConfig) (s : FSRSCardState) (now : ℚ) (r : ℕ)
    (hstate : s.state = CardState.learning ∨ s.state = CardState.relearning)
    (hr : r = 1 ∨ r = 2) :
    (processReview m P Cfg s r now).difficulty = s.difficulty ∧
    (processReview m P Cfg s r now).stability = s.stability ∧
    (processReview m P Cfg s r now).reps = s.reps ∧
    (processReview m P Cfg s r now).lapses = s.lapses ∧
    (processReview m P Cfg s r now).state = s.state ∧
    (r = 2 → (processReview m P Cfg s r now).scheduledDays =
      applyFuzz m P
        ((if s.state = CardState.learning then Cfg.learningSteps
          else Cfg.relearningSteps).getD 0 0 * 1.2 / (24 * 60))) := by
  obtain ⟨st, d, stab, retr, reps, lapses, lastR, nextR, sched, eld⟩ := s
  simp only at hstate
  rcases hstate with rfl | rfl <;> rcases hr with rfl | rfl <;>
    simp [processReview, processLearningCard]

/-- Witness for `c10_learning_frame`: a relearning card rated Hard. -/
theorem c10_learning_frame_witness :
    ((processReview dummyMath DEFAULT_FSRS_PARAMETERS DEFAULT_STUDY_CONFIG
      ⟨CardState.relearning, 5, 2, 1, 1, 1, some 0, 0, 1, 0⟩ 2
      86400000).difficulty = 5 ∧
    (processReview dummyMath DEFAULT_FSRS_PARAMETERS DEFAULT_STUDY_CONFIG
      ⟨CardState.relearning, 5, 2, 1, 1, 1, some 0, 0, 1, 0⟩ 2
      86400000).stability = 2 ∧
    (processReview dummyMath DEFAULT_FSRS_PARAMETERS DEFAULT_STUDY_CONFIG
      ⟨CardState.relearning, 5, 2, 1, 1, 1, some 0, 0, 1, 0⟩ 2
      86400000).reps = 1 ∧
    (processReview dummyMath DEFAULT_FSRS_PARAMETERS DEFAULT_STUDY_CONFIG
      ⟨CardState.relearning, 5, 2, 1, 1, 1, some 0, 0, 1, 0⟩ 2
      86400000).lapses = 1 ∧
    (processReview dummyMath DEFAULT_FSRS_PARAMETERS DEFAULT_STUDY_CONFIG
      ⟨CardState.relearning, 5, 2, 1, 1, 1, some 0, 0, 1, 0⟩ 2
      86400000).state = CardState.relearning ∧
    (2 = 2 → (processReview dummyMath DEFAULT_FSRS_PARAMETERS
        DEFAULT_STUDY_CONFIG
        ⟨CardState.relearning, 5, 2, 1, 1, 1, some 0, 0, 1, 0⟩ 2
        86400000).scheduledDays =
      applyFuzz dummyMath DEFAULT_FSRS_PARAMETERS
        ((if (⟨CardState.relearning, 5, 2, 1, 1, 1, some 0, 0, 1, 0⟩ :
            FSRSCardState).state = CardState.learning
          then DEFAULT_STUDY_CONFIG.learningSteps
          else DEFAULT_STUDY_CONFIG.relearningSteps).getD 0 0 * 1.2 /
          (24 * 60)))) :=
  c10_learning_frame dummyMath DEFAULT_FSRS_PARAMETERS DEFAULT_STUDY_CONFIG
    ⟨CardState.relearning, 5, 2, 1, 1, 1, some 0, 0, 1, 0⟩ 86400000 2
    (Or.inr rfl) (Or.inr rfl)

/-- C9.  `formatInterval` labels < 1 day in minutes, switching to an hours
label once the rounded minutes reach 60; < 30 days in rounded days; < 365 days
in rounded months (of 30 days); otherwise in years with one decimal digit.  In
particular 0.02 days → "29m", 45 days → "2mo", 400 days → "1.1y", and 90
minutes (0.0625 days) → "2h", not "90m". -/
theorem c9_format_interval :
    (∀ d : ℚ, d < 1 → jsRound (d * 24 * 60) < 60 →
      formatInterval d = toString (jsRound (d * 24 * 60)) ++ "m") ∧
    (∀ d : ℚ, d < 1 → 60 ≤ jsRound (d * 24 * 60) →
      formatInterval d =
        toString (jsRound ((jsRound (d * 24 * 60) : ℚ) / 60)) ++ "h") ∧
    (∀ d : ℚ, 1 ≤ d → d < 30 →
      formatInterval d = toString (jsRound d) ++ "d") ∧
    (∀ d : ℚ, 30 ≤ d → d < 365 →
      formatInterval d = toString (jsRound (d / 30)) ++ "mo") ∧
    (∀ d : ℚ, 365 ≤ d → formatInterval d = jsToFixed1 (d / 365) ++ "y") ∧
    formatInterval 0.02 = "29m" ∧
    formatInterval 45 = "2mo" ∧
    formatInterval 400 = "1.1y" ∧
    formatInterval (90 / 1440) = "2h" := by
  refine ⟨?_, ?_, ?_, ?_, ?_, ?_, ?_, ?_, ?_⟩
  · intro d h1 h2
    simp [formatInterval, h1, h2]
  · intro d h1 h2
    simp [formatInterval, h1, not_lt.mpr h2]
  · intro d h1 h2
    simp [formatInterval, not_lt.mpr h1, h2]
  · intro d h1 h2
    simp [formatInterval, not_lt.mpr (by linarith : (1:ℚ) ≤ d),
      not_lt.mpr h1, h2]
  · intro d h1
    simp [formatInterval, not_lt.mpr (by linarith : (1:ℚ) ≤ d),
      not_lt.mpr (by linarith : (30:ℚ) ≤ d), not_lt.mpr h1]
  · with_unfolding_all decide
  · with_unfolding_all decide
  · with_unfolding_all decide
  · with_unfolding_all decide

/-- Witness for `c9_format_interval`: the days clause applied at 5 days. -/
theorem c9_format_interval_witness :
    formatInterval 5 = toString (jsRound 5) ++ "d" :=
  c9_format_interval.2.2.1 5 (by norm_num) (by norm_num)

/-- C6.  With the default weights, for any difficulty in `[1,10]`, stability
`> 0` and retrievability in `[0,1]`, a Good rating never shrinks stability:
`nextStabilityAfterSuccess` returns at least the input stability.  The
hypotheses on `e` (for `Math.exp`) and `pw` (for `Math.pow`) are true facts of
the real functions: `exp` is positive, `exp x ≥ 1` for `x ≥ 0`, and a power of
a positive base is non-negative. -/
theorem c6_success_monotone (e l : ℚ → ℚ) (pw : ℚ → ℚ → ℚ) (r : ℚ)
    (hexp_pos : ∀ x, 0 < e x) (hexp_ge_one : ∀ x, 0 ≤ x → 1 ≤ e x)
    (hpow_nonneg : ∀ b y, 0 < b → 0 ≤ pw b y)
    (D S R : ℚ) (hD1 : 1 ≤ D) (hD2 : D ≤ 10) (hS : 0 < S)
    (hR1 : 0 ≤ R) (hR2 : R ≤ 1) :
    S ≤ nextStabilityAfterSuccess ⟨e, l, pw, r⟩ DEFAULT_FSRS_PARAMETERS
      D S R 3 := by
  have hw10 : (0 : ℚ) ≤ DEFAULT_FSRS_PARAMETERS.w.getD 10 0 := by
    with_unfolding_all decide
  have h1 : 0 < e (DEFAULT_FSRS_PARAMETERS.w.getD 8 0) := hexp_pos _
  have h2 : (0 : ℚ) ≤ 11 - D := by linarith
  have h3 : 0 ≤ pw S (-(DEFAULT_FSRS_PARAMETERS.w.getD 9 0)) :=
    hpow_nonneg _ _ hS
  have h4 : 1 ≤ e (DEFAULT_FSRS_PARAMETERS.w.getD 10 0 * (1 - R)) :=
    hexp_ge_one _ (mul_nonneg hw10 (by linarith))
  have hprod : 0 ≤ e (DEFAULT_FSRS_PARAMETERS.w.getD 8 0) * (11 - D) *
      pw S (-(DEFAULT_FSRS_PARAMETERS.w.getD 9 0)) *
      (e (DEFAULT_FSRS_PARAMETERS.w.getD 10 0 * (1 - R)) - 1) :=
    mul_nonneg (mul_nonneg (mul_nonneg h1.le h2) h3) (by linarith)
  simp only [nextStabilityAfterSuccess, if_neg (show ¬(3 : ℕ) = 2 by decide),
    if_neg (show ¬(3 : ℕ) = 4 by decide), mul_one]
  nlinarith [mul_nonneg hS.le hprod]

/-- Witness for `c6_success_monotone` with concrete functions satisfying the
exp/pow facts, at difficulty 5, stability 2, retrievability 1/2. -/
theorem c6_success_monotone_witness :
    (2 : ℚ) ≤ nextStabilityAfterSuccess
      ⟨fun x => if 0 ≤ x then 1 + x else 1, fun _ => 0,
       fun b _ => if 0 < b then 1 else 0, 0⟩
      DEFAULT_FSRS_PARAMETERS 5 2 (1 / 2) 3 :=
  c6_success_monotone (fun x => if 0 ≤ x then 1 + x else 1) (fun _ => 0)
    (fun b _ => if 0 < b then 1 else 0) 0
    (fun x => by dsimp only; split <;> linarith)
    (fun x hx => by simp only [if_pos hx]; linarith)
    (fun b y hb => by simp only [if_pos hb]; norm_num)
    5 2 (1 / 2) (by norm_num) (by norm_num) (by norm_num) (by norm_num)
    (by norm_num)

/-- With fuzz disabled, `applyFuzz` is plain rounding and never consults the
random draw. -/
theorem applyFuzz_off (m : JSMath) (P : FSRSParameters) (x : ℚ)
    (hf : P.enableFuzz = false) :
    applyFuzz m P x = ((jsRound x : ℤ) : ℚ) := by
  simp [applyFuzz, hf]

/-- With fuzz disabled, `processReview` does not depend on the random draw:
any two draws give identical results. -/
theorem processReview_rand_indep (e l : ℚ → ℚ) (pw : ℚ → ℚ → ℚ) (r1 r2 : ℚ)
    (P : FSRSParameters) (Cfg : StudySessionConfig) (s : FSRSCardState)
    (rt : ℕ) (now : ℚ) (hf : P.enableFuzz = false) :
    processReview ⟨e, l, pw, r1⟩ P Cfg s rt now =
      processReview ⟨e, l, pw, r2⟩ P Cfg s rt now := by
  obtain ⟨st, d, stab, retr, reps, lapses, lastR, nextR, sched, eld⟩ := s
  cases st <;>
    simp only [processReview, processNewCard, processLearningCard,
      processReviewCard, initDifficulty, initStability, nextDifficulty,
      calculateRetrievability, nextStabilityAfterSuccess,
      nextStabilityAfterFailure, calculateInterval,
      applyFuzz_off _ _ _ hf]

/-- C8.  With fuzz disabled, the scheduling preview `getSchedulingCards` is
fully deterministic: its output does not depend on the random draw, so two
calls with identical card state, parameters, configuration and timestamp
return identical outputs.  (The embedding is a pure function of its inputs —
the source computes each preview on a spread copy of the card state, never
writing to the input.) -/
theorem c8_preview_deterministic (e l : ℚ → ℚ) (pw : ℚ → ℚ → ℚ) (r1 r2 : ℚ)
    (P : FSRSParameters) (Cfg : StudySessionConfig) (s : FSRSCardState)
    (now : ℚ) (hf : P.enableFuzz = false) :
    getSchedulingCards ⟨e, l, pw, r1⟩ P Cfg s now =
      getSchedulingCards ⟨e, l, pw, r2⟩ P Cfg s now := by
  simp only [getSchedulingCards, createSchedulingInfo,
    processReview_rand_indep e l pw r1 r2 P Cfg s _ now hf]

/-- Witness for `c8_preview_deterministic` at two different random draws. -/
theorem c8_preview_deterministic_witness :
    getSchedulingCards ⟨fun _ => 0, fun _ => 0, fun _ _ => 0, 0⟩
      FUZZLESS_PARAMETERS DEFAULT_STUDY_CONFIG reviewCard 86400000 =
    getSchedulingCards ⟨fun _ => 0, fun _ => 0, fun _ _ => 0, 1⟩
      FUZZLESS_PARAMETERS DEFAULT_STUDY_CONFIG reviewCard 86400000 :=
  c8_preview_deterministic (fun _ => 0) (fun _ => 0) (fun _ _ => 0) 0 1
    FUZZLESS_PARAMETERS DEFAULT_STUDY_CONFIG reviewCard 86400000 rfl

/-- Emitting items over an appended list splits into two runs of the priority
counter. -/
theorem mkItems_append (s : ℕ) (l1 l2 : List LearningCard) :
    mkItems s (l1 ++ l2) = mkItems s l1 ++ mkItems (s + l1.length) l2 := by
  induction l1 generalizing s with
  | nil => simp [mkItems]
  | cons a l ih =>
    simp only [List.cons_append, mkItems, List.length_cons]
    rw [List.append_eq, ih,
      show s + (l.length + 1) = s + 1 + l.length from by omega]

/-- `mkItems` preserves length. -/
theorem mkItems_length (s : ℕ) (l : List LearningCard) :
    (mkItems s l).length = l.length := by
  induction l generalizing s with
  | nil => rfl
  | cons a l ih => simp [mkItems, ih]

/-- The priorities emitted by `mkItems` are the consecutive naturals from the
starting counter. -/
theorem mkItems_map_priority (s : ℕ) (l : List LearningCard) :
    (mkItems s l).map (fun x => x.priority) = List.range' s l.length := by
  induction l generalizing s with
  | nil => rfl
  | cons a l ih => simp [mkItems, ih, List.range'_succ]

/-- The states of the emitted items are the card states, in order. -/
theorem mkItems_map_state (s : ℕ) (l : List LearningCard) :
    (mkItems s l).map (fun x => x.state) =
      l.map (fun c => c.fsrsState.state) := by
  induction l generalizing s with
  | nil => rfl
  | cons a l ih => simp [mkItems, ih]

/-- Every emitted item carries the state of some card of the input list. -/
theorem mem_mkItems_state (s : ℕ) (l : List LearningCard)
    (x : ReviewQueueItem) (hx : x ∈ mkItems s l) :
    ∃ c ∈ l, x.state = c.fsrsState.state := by
  have hmem : x.state ∈ (mkItems s l).map (fun y => y.state) :=
    List.mem_map_of_mem _ hx
  rw [mkItems_map_state] at hmem
  obtain ⟨c, hc, he⟩ := List.mem_map.mp hmem
  exact ⟨c, hc, he.symm⟩

/-- The interleaved queue is a permutation of the two input lists. -/
theorem interleaveQueue_perm (xs ys : List α) :
    List.Perm (interleaveQueue xs ys) (xs ++ ys) := by
  induction ys generalizing xs with
  | nil => simp [interleaveQueue]
  | cons n ns ih =>
    simp only [interleaveQueue]
    have h1 : List.Perm (xs.take 10 ++ n :: interleaveQueue (xs.drop 10) ns)
        (xs.take 10 ++ n :: (xs.drop 10 ++ ns)) :=
      List.Perm.append_left _ (List.Perm.cons _ (ih _))
    have h2 : List.Perm (xs.take 10 ++ n :: (xs.drop 10 ++ ns))
        (xs.take 10 ++ (xs.drop 10 ++ n :: ns)) :=
      List.Perm.append_left _ List.perm_middle.symm
    have h3 := h1.trans h2
    rwa [← List.append_assoc, List.take_append_drop] at h3

/-- `map` commutes with the interleaving. -/
theorem interleaveQueue_map (f : α → β) (xs ys : List α) :
    (interleaveQueue xs ys).map f =
      interleaveQueue (xs.map f) (ys.map f) := by
  induction ys generalizing xs with
  | nil => rfl
  | cons n ns ih =>
    simp [interleaveQueue, ih, List.map_take, List.map_drop]

/-- A map which is constant on a list produces a `replicate`. -/
theorem map_eq_replicate_of_forall {l : List α} {f : α → β} {b : β}
    (h : ∀ x ∈ l, f x = b) : l.map f = List.replicate l.length b := by
  induction l with
  | nil => rfl
  | cons a l ih =>
    simp only [List.map_cons, List.length_cons, List.replicate_succ]
    exact congrArg₂ _ (h a (by simp)) (ih (fun x hx => h x (by simp [hx])))

/-- `orderedInsert` permutes to consing. -/
theorem orderedInsert_perm (le : α → α → Bool) (a : α) (l : List α) :
    List.Perm (orderedInsert le a l) (a :: l) := by
  induction l with
  | nil => simp [orderedInsert]
  | cons b bs ih =>
    simp only [orderedInsert]
    split
    · exact List.Perm.refl _
    · exact (List.Perm.cons b ih).trans (List.Perm.swap a b bs)

/-- The insertion sort permutes its input. -/
theorem isort_perm (le : α → α → Bool) (l : List α) :
    List.Perm (isort le l) l := by
  induction l with
  | nil => exact List.Perm.refl _
  | cons a as ih =>
    exact (orderedInsert_perm le a (isort le as)).trans (List.Perm.cons a ih)

/-- Membership is preserved by the insertion sort. -/
theorem mem_isort (le : α → α → Bool) (l : List α) (x : α)
    (hx : x ∈ isort le l) : x ∈ l :=
  (isort_perm le l).mem_iff.mp hx

/-- Counting a state predicate over emitted items equals counting it over the
cards. -/
theorem countP_mkItems (s : ℕ) (l : List LearningCard)
    (p : CardState → Bool) :
    (mkItems s l).countP (fun x => p x.state) =
      l.countP (fun c => p c.fsrsState.state) := by
  induction l generalizing s with
  | nil => rfl
  | cons a l ih => simp [mkItems, List.countP_cons, ih]

/-- C5.  Structure of `buildStudyQueue`: the queue splits into a prefix of
Learning/Relearning items followed by Review/New items only; the state pattern
of that suffix is exactly the 10-review/1-new interleaving of the capped
review and new lists; the number of New items never exceeds `newCardsPerDay`;
the number of Review items never exceeds `maxReviewsPerDay` unless that cap is
0; and the priorities are exactly `0, 1, 2, …` in final queue order. -/
theorem c5_queue_structure (Cfg : StudySessionConfig)
    (cards : List LearningCard) (now : ℚ) :
    ∃ qa qb nR nN,
      buildStudyQueue Cfg cards now = qa ++ qb ∧
      (∀ x ∈ qa, x.state = CardState.learning ∨
        x.state = CardState.relearning) ∧
      (∀ x ∈ qb, x.state = CardState.review ∨ x.state = CardState.new) ∧
      qb.map (fun x => x.state) =
        interleaveQueue (List.replicate nR CardState.review)
          (List.replicate nN CardState.new) ∧
      nN ≤ Cfg.newCardsPerDay ∧
      (Cfg.maxReviewsPerDay = 0 ∨ nR ≤ Cfg.maxReviewsPerDay) ∧
      (buildStudyQueue Cfg cards now).countP
        (fun x => x.state = CardState.new) ≤ Cfg.newCardsPerDay ∧
      (Cfg.maxReviewsPerDay = 0 ∨
        (buildStudyQueue Cfg cards now).countP
          (fun x => x.state = CardState.review) ≤ Cfg.maxReviewsPerDay) ∧
      (buildStudyQueue Cfg cards now).map (fun x => x.priority) =
        List.range (buildStudyQueue Cfg cards now).length := by
  have hq : buildStudyQueue Cfg cards now =
      mkItems 0 (learningCardsOf cards now) ++
        mkItems (learningCardsOf cards now).length
          (interleaveQueue (reviewCardsOf Cfg cards now)
            (newCardsOf Cfg cards)) := by
    rw [buildStudyQueue, mkItems_append, Nat.zero_add]
  have hLstates : ∀ c ∈ learningCardsOf cards now,
      c.fsrsState.state = CardState.learning ∨
      c.fsrsState.state = CardState.relearning := by
    intro c hc
    simp only [learningCardsOf] at hc
    simpa using (List.mem_filter.mp hc).2
  have hRvstates : ∀ c ∈ reviewCardsOf Cfg cards now,
      c.fsrsState.state = CardState.review := by
    intro c hc
    simp only [reviewCardsOf] at hc
    split at hc
    · simpa using (List.mem_filter.mp hc).2
    · simpa using (List.mem_filter.mp (List.mem_of_mem_take hc)).2
  have hNwstates : ∀ c ∈ newCardsOf Cfg cards,
      c.fsrsState.state = CardState.new := by
    intro c hc
    simp only [newCardsOf, getNewCards] at hc
    have hc2 := mem_isort _ _ _ (List.mem_of_mem_take hc)
    simpa using (List.mem_filter.mp hc2).2
  have hNlen : (newCardsOf Cfg cards).length ≤ Cfg.newCardsPerDay := by
    rw [newCardsOf, List.length_take]
    exact Nat.min_le_left _ _
  have hRvlen : Cfg.maxReviewsPerDay ≠ 0 →
      (reviewCardsOf Cfg cards now).length ≤ Cfg.maxReviewsPerDay := by
    intro h0
    simp only [reviewCardsOf, if_neg h0, List.length_take]
    exact Nat.min_le_left _ _
  have hmain : ∀ p : CardState → Bool,
      (buildStudyQueue Cfg cards now).countP (fun x => p x.state) =
        (learningCardsOf cards now).countP (fun c => p c.fsrsState.state) +
        ((reviewCardsOf Cfg cards now).countP
            (fun c => p c.fsrsState.state) +
          (newCardsOf Cfg cards).countP (fun c => p c.fsrsState.state)) := by
    intro p
    rw [hq, List.countP_append, countP_mkItems, countP_mkItems,
      (interleaveQueue_perm _ _).countP_eq, List.countP_append]
  refine ⟨mkItems 0 (learningCardsOf cards now),
    mkItems (learningCardsOf cards now).length
      (interleaveQueue (reviewCardsOf Cfg cards now) (newCardsOf Cfg cards)),
    (reviewCardsOf Cfg cards now).length, (newCardsOf Cfg cards).length,
    hq, ?_, ?_, ?_, hNlen, ?_, ?_, ?_, ?_⟩
  · intro x hx
    obtain ⟨c, hc, he⟩ := mem_mkItems_state _ _ _ hx
    rw [he]
    exact hLstates c hc
  · intro x hx
    obtain ⟨c, hc, he⟩ := mem_mkItems_state _ _ _ hx
    rcases List.mem_append.mp ((interleaveQueue_perm _ _).mem_iff.mp hc)
      with hr | hn
    · exact Or.inl (he.trans (hRvstates c hr))
    · exact Or.inr (he.trans (hNwstates c hn))
  · rw [mkItems_map_state, interleaveQueue_map,
      map_eq_replicate_of_forall hRvstates,
      map_eq_replicate_of_forall hNwstates]
  · by_cases h0 : Cfg.maxReviewsPerDay = 0
    · exact Or.inl h0
    · exact Or.inr (hRvlen h0)
  · have h7 := hmain (fun st => decide (st = CardState.new))
    simp only [] at h7
    have e1 : (learningCardsOf cards now).countP
        (fun c => decide (c.fsrsState.state = CardState.new)) = 0 :=
      List.countP_eq_zero.mpr
        (by intro c hc; rcases hLstates c hc with h | h <;> simp [h])
    have e2 : (reviewCardsOf Cfg cards now).countP
        (fun c => decide (c.fsrsState.state = CardState.new)) = 0 :=
      List.countP_eq_zero.mpr (by intro c hc; simp [hRvstates c hc])
    have e3 : (newCardsOf Cfg cards).countP
        (fun c => decide (c.fsrsState.state = CardState.new)) ≤
        (newCardsOf Cfg cards).length := List.countP_le_length _
    rw [e1, e2] at h7
    rw [h7]
    simpa using le_trans e3 hNlen
  · by_cases h0 : Cfg.maxReviewsPerDay = 0
    · exact Or.inl h0
    · refine Or.inr ?_
      have h8 := hmain (fun st => decide (st = CardState.review))
      simp only [] at h8
      have e1 : (learningCardsOf cards now).countP
          (fun c => decide (c.fsrsState.state = CardState.review)) = 0 :=
        List.countP_eq_zero.mpr
          (by intro c hc; rcases hLstates c hc with h | h <;> simp [h])
      have e2 : (newCardsOf Cfg cards).countP
          (fun c => decide (c.fsrsState.state = CardState.review)) = 0 :=
        List.countP_eq_zero.mpr (by intro c hc; simp [hNwstates c hc])
      have e3 : (reviewCardsOf Cfg cards now).countP
          (fun c => decide (c.fsrsState.state = CardState.review)) ≤
          (reviewCardsOf Cfg cards now).length := List.countP_le_length _
      rw [e1, e2] at h8
      rw [h8]
      simpa using le_trans e3 (hRvlen h0)
  · rw [buildStudyQueue, mkItems_map_priority, mkItems_length,
      List.range_eq_range']

/-- Witness for `c5_queue_structure`: the full statement instantiated at the
default configuration, an empty collection and time 0. -/
theorem c5_queue_structure_witness :
    ∃ qa qb nR nN,
      buildStudyQueue DEFAULT_STUDY_CONFIG [] 0 = qa ++ qb ∧
      (∀ x ∈ qa, x.state = CardState.learning ∨
        x.state = CardState.relearning) ∧
      (∀ x ∈ qb, x.state = CardState.review ∨ x.state = CardState.new) ∧
      qb.map (fun x => x.state) =
        interleaveQueue (List.replicate nR CardState.review)
          (List.replicate nN CardState.new) ∧
      nN ≤ DEFAULT_STUDY_CONFIG.newCardsPerDay ∧
      (DEFAULT_STUDY_CONFIG.maxReviewsPerDay = 0 ∨
        nR ≤ DEFAULT_STUDY_CONFIG.maxReviewsPerDay) ∧
      (buildStudyQueue DEFAULT_STUDY_CONFIG [] 0).countP
        (fun x => x.state = CardState.new) ≤
        DEFAULT_STUDY_CONFIG.newCardsPerDay ∧
      (DEFAULT_STUDY_CONFIG.maxReviewsPerDay = 0 ∨
        (buildStudyQueue DEFAULT_STUDY_CONFIG [] 0).countP
          (fun x => x.state = CardState.review) ≤
          DEFAULT_STUDY_CONFIG.maxReviewsPerDay) ∧
      (buildStudyQueue DEFAULT_STUDY_CONFIG [] 0).map (fun x => x.priority) =
        List.range (buildStudyQueue DEFAULT_STUDY_CONFIG [] 0).length :=
  c5_queue_structure DEFAULT_STUDY_CONFIG [] 0
